import Mathlib

/-!
Verification development for the IPNS record verification command
(`src/core/commands/name/name.go`, `IpnsVerifyRecordCmd`).

The command's own control flow (argument trimming, record unmarshalling,
identity decoding, the embedded-key fallback, the validate-then-emit
pipeline, and the text encoder) is embedded directly from the Go source.
The library collaborators it calls — `proto.Unmarshal`, `peer.Decode`,
`PeerID.ExtractPublicKey`, `crypto.UnmarshalPublicKey`, `ipns.Validate`,
`ipns.GetEOL` — are not part of this repository's source tree, so they
are modelled from the specification (see the doc comment on each).
Bytes are modelled as `List Nat`, key material symbolically.
-/

/-- Reasons a key-resolution failure can carry: the record offers no key
source at all, or the embedded key bytes do not unmarshal. -/
inductive KeyResolutionReason where
  | noKeySource
  | badEmbeddedKey
deriving DecidableEq, Repr

/-- The error kinds of the verification pipeline, following the spec's
error taxonomy (DecodeError, IdentityDecodeError, KeyResolutionError,
SignatureError, ValidityError). -/
inductive VerifyError where
  | decodeError
  | identityDecodeError
  | keyResolutionError (reason : KeyResolutionReason)
  | signatureError
  | validityError
deriving DecidableEq, Repr

/-- Key type tags. `rsa` stands for the key family too large to embed in
an identity token; `ed25519` for the compact family embedded directly. -/
inductive KeyType where
  | rsa
  | ed25519
deriving DecidableEq, Repr

/-- Modelled from the spec: a public key is a tagged variant of key type
and key material (spec section 9: represent PublicKey as a tagged variant
of type and payload). Key material is abstracted to a natural number. -/
structure PubKey where
  keyType : KeyType
  keyData : Nat
deriving DecidableEq, Repr

/-- Modelled from the spec: a private key, identified by the public key it
matches. Only the correspondence matters for the symbolic signature model. -/
structure PrivKey where
  toPub : PubKey
deriving DecidableEq, Repr

/-- Wire tag of a key type, as used in the serialized public-key bytes. -/
def keyTypeCode : KeyType → Nat
  | KeyType.rsa => 0
  | KeyType.ed25519 => 1

/-- Serialized form of a public key: its type tag followed by its material. -/
def encodePubKey (pk : PubKey) : List Nat :=
  [keyTypeCode pk.keyType, pk.keyData]

/-- Modelled from the spec: `crypto.UnmarshalPublicKey` (libp2p, not under
src/) parses serialized public-key bytes back into a tagged key, failing on
malformed bytes. It receives only the bytes, never the identity. -/
def unmarshalPublicKey : List Nat → Except VerifyError PubKey
  | [0, d] => Except.ok ⟨KeyType.rsa, d⟩
  | [1, d] => Except.ok ⟨KeyType.ed25519, d⟩
  | _ => Except.error (VerifyError.keyResolutionError KeyResolutionReason.badEmbeddedKey)

/-- Modelled from the spec: the cryptographic hash of a byte sequence,
abstracted to an accumulating fold. Only used to derive hash-type
identities from large public keys. -/
def hashBytes (l : List Nat) : Nat :=
  l.foldl (fun a b => a * 256 + b + 1) 1

/-- Modelled from the spec: an idealized signature. Signing with a private
key records the matching public key and the exact payload, so a signature
verifies under a public key iff it was produced by the matching private
key over the same payload. -/
def signBytes (sk : PrivKey) (payload : List Nat) : List Nat :=
  encodePubKey sk.toPub ++ payload

/-- Modelled from the spec: key-type-dispatched signature verification over
the resolved key; true iff the signature is the matching private key's
signature over exactly this payload. -/
def verifySig (pk : PubKey) (payload sig : List Nat) : Bool :=
  decide (sig = encodePubKey pk ++ payload)

/-- An identity (peer ID): either it embeds a compact public key directly
(identity-multihash form) or it carries only the hash of a large key. -/
inductive PeerID where
  | embedded (pk : PubKey)
  | hashed (h : Nat)
deriving DecidableEq, Repr

/-- Modelled from the spec: `id.ExtractPublicKey` (libp2p, not under src/)
recovers the public key from an identity when the identity embeds it
directly, and fails when the identity is only a hash of the key. -/
def PeerID.extractPublicKey : PeerID → Except VerifyError PubKey
  | PeerID.embedded pk => Except.ok pk
  | PeerID.hashed _ => Except.error (VerifyError.keyResolutionError KeyResolutionReason.noKeySource)

/-- Modelled from the spec: the identity derived from a public key — the
compact family is embedded directly, the large family is hashed. -/
def peerIDOfPubKey (pk : PubKey) : PeerID :=
  match pk.keyType with
  | KeyType.ed25519 => PeerID.embedded pk
  | KeyType.rsa => PeerID.hashed (hashBytes (encodePubKey pk))

/-- Numeric value of a decimal digit character, if it is one. -/
def digitOfChar (c : Char) : Option Nat :=
  if 48 ≤ c.toNat ∧ c.toNat ≤ 57 then some (c.toNat - 48) else none

/-- Parse a nonempty all-digit character list as a natural number. -/
def parseDigits (l : List Char) : Option Nat :=
  if l = [] then none
  else
    l.foldl
      (fun acc c =>
        match acc, digitOfChar c with
        | some a, some d => some (a * 10 + d)
        | _, _ => none)
      (some 0)

/-- Modelled from the spec: `peer.Decode` (libp2p, not under src/) parses
the text form of an identity token. Token forms: a leading E with digits
is an identity embedding a compact key, a leading H with digits is a
hash-only identity; anything else is a malformed token. -/
def peerDecode (s : List Char) : Except VerifyError PeerID :=
  match s with
  | 'E' :: rest =>
    match parseDigits rest with
    | some n => Except.ok (PeerID.embedded ⟨KeyType.ed25519, n⟩)
    | none => Except.error VerifyError.identityDecodeError
  | 'H' :: rest =>
    match parseDigits rest with
    | some n => Except.ok (PeerID.hashed n)
    | none => Except.error VerifyError.identityDecodeError
  | _ => Except.error VerifyError.identityDecodeError

/-- The decoded IPNS record, mirroring the protobuf `IpnsEntry` message:
all fields optional at the wire level, bytes fields defaulting to empty.
Field order follows the protobuf tag order (value 1, signatureV1 2,
validityType 3, validity 4, sequence 5, ttl 6, pubKey 7, signatureV2 8). -/
structure IpnsEntry where
  value : List Nat
  signatureV1 : Option (List Nat)
  validityType : Option Nat
  validity : List Nat
  sequence : Option Nat
  ttl : Option Nat
  pubKey : List Nat
  signatureV2 : Option (List Nat)
deriving DecidableEq, Repr

/-- The entry with every field absent, the starting point of decoding. -/
def emptyEntry : IpnsEntry :=
  ⟨[], none, none, [], none, none, [], none⟩

/-- Big-endian interpretation of payload bytes as a natural number, for
the numeric record fields. -/
def bytesToNat (l : List Nat) : Nat :=
  l.foldl (fun a b => a * 256 + b) 0

/-- One wire chunk: a field tag and its payload bytes. -/
def applyChunk (e : IpnsEntry) (c : Nat × List Nat) : IpnsEntry :=
  match c.1 with
  | 1 => ⟨c.2, e.signatureV1, e.validityType, e.validity, e.sequence, e.ttl, e.pubKey, e.signatureV2⟩
  | 2 => ⟨e.value, some c.2, e.validityType, e.validity, e.sequence, e.ttl, e.pubKey, e.signatureV2⟩
  | 3 => ⟨e.value, e.signatureV1, some (bytesToNat c.2), e.validity, e.sequence, e.ttl, e.pubKey, e.signatureV2⟩
  | 4 => ⟨e.value, e.signatureV1, e.validityType, c.2, e.sequence, e.ttl, e.pubKey, e.signatureV2⟩
  | 5 => ⟨e.value, e.signatureV1, e.validityType, e.validity, some (bytesToNat c.2), e.ttl, e.pubKey, e.signatureV2⟩
  | 6 => ⟨e.value, e.signatureV1, e.validityType, e.validity, e.sequence, some (bytesToNat c.2), e.pubKey, e.signatureV2⟩
  | 7 => ⟨e.value, e.signatureV1, e.validityType, e.validity, e.sequence, e.ttl, c.2, e.signatureV2⟩
  | 8 => ⟨e.value, e.signatureV1, e.validityType, e.validity, e.sequence, e.ttl, e.pubKey, some c.2⟩
  | _ => e

/-- Split a byte stream into tagged, length-prefixed chunks. The fuel is
an upper bound on the number of chunks; each chunk consumes at least two
bytes, so the caller passes the stream length. Truncated chunks fail. -/
def readChunksAux : Nat → List Nat → Option (List (Nat × List Nat))
  | _, [] => some []
  | 0, _ :: _ => none
  | _ + 1, [_] => none
  | fuel + 1, tag :: len :: rest =>
    if len ≤ rest.length then
      match readChunksAux fuel (rest.drop len) with
      | some cs => some ((tag, rest.take len) :: cs)
      | none => none
    else none

/-- Split a whole byte stream into chunks. -/
def readChunks (b : List Nat) : Option (List (Nat × List Nat)) :=
  readChunksAux b.length b

/-- Modelled from the spec: `proto.Unmarshal` for the record message (the
protobuf runtime is not under src/). Parses the tagged binary structure;
unknown tags are ignored for forward compatibility, later occurrences of
a tag overwrite earlier ones, absent fields keep their defaults, and a
malformed (truncated) stream fails with DecodeError. -/
def protoUnmarshal (b : List Nat) : Except VerifyError IpnsEntry :=
  match readChunks b with
  | some cs => Except.ok (cs.foldl applyChunk emptyEntry)
  | none => Except.error VerifyError.decodeError

/-- Deterministic, field-order-fixed encoder for the record, the inverse
direction of the codec (spec section 4.1). -/
def chunkBytes (tag : Nat) (payload : List Nat) : List Nat :=
  tag :: payload.length :: payload

/-- Encode an optional numeric field as a chunk, or nothing when absent. -/
def encodeOptNatField (tag : Nat) : Option Nat → List Nat
  | none => []
  | some n => chunkBytes tag [n]

/-- Encode an optional bytes field as a chunk, or nothing when absent. -/
def encodeOptBytesField (tag : Nat) : Option (List Nat) → List Nat
  | none => []
  | some p => chunkBytes tag p

/-- Encode a record in fixed tag order, omitting absent optional fields. -/
def encodeEntry (e : IpnsEntry) : List Nat :=
  chunkBytes 1 e.value
    ++ encodeOptBytesField 2 e.signatureV1
    ++ encodeOptNatField 3 e.validityType
    ++ chunkBytes 4 e.validity
    ++ encodeOptNatField 5 e.sequence
    ++ encodeOptNatField 6 e.ttl
    ++ (if e.pubKey = [] then [] else chunkBytes 7 e.pubKey)
    ++ encodeOptBytesField 8 e.signatureV2

/-- Numeric value of a decimal digit byte (character code), if it is one. -/
def digitOfByte (b : Nat) : Option Nat :=
  if 48 ≤ b ∧ b ≤ 57 then some (b - 48) else none

/-- Modelled from the spec: parsing the fixed textual format of the
absolute validity timestamp. The validity bytes must be a nonempty string
of decimal digit characters denoting the timestamp. -/
def parseTimestamp (l : List Nat) : Option Nat :=
  if l = [] then none
  else
    l.foldl
      (fun acc b =>
        match acc, digitOfByte b with
        | some a, some d => some (a * 10 + d)
        | _, _ => none)
      (some 0)

/-- Wire code of the EOL validity type (the only defined one). -/
def eolValidityType : Nat := 0

/-- Modelled from the spec: `ipns.GetEOL` / ValidityCalculator.computeEOL
(go-ipns, not under src/): requires the validity type to be EOL and parses
the validity bytes as an absolute timestamp; fails with ValidityError when
the type is unrecognized or absent, or the timestamp is unparsable. -/
def getEOL (e : IpnsEntry) : Except VerifyError Nat :=
  if e.validityType = some eolValidityType then
    match parseTimestamp e.validity with
    | some t => Except.ok t
    | none => Except.error VerifyError.validityError
  else Except.error VerifyError.validityError

/-- Modelled from the spec: canonical payload of the current signature
scheme — a deterministic, order-fixed concatenation over value,
validityType, validity, sequence and ttl, excluding the public key and
both signature fields. Optional numbers are tagged present or absent. -/
def encodeOptNat : Option Nat → List Nat
  | none => [0]
  | some n => [1, n]

/-- Canonical payload covered by the current-scheme signature. -/
def sigV2Payload (e : IpnsEntry) : List Nat :=
  e.value ++ encodeOptNat e.validityType ++ e.validity
    ++ encodeOptNat e.sequence ++ encodeOptNat e.ttl

/-- Canonical payload covered by the legacy-scheme signature: value and
validity only. -/
def sigV1Payload (e : IpnsEntry) : List Nat :=
  e.value ++ e.validity

/-- Validity stage of validation: the EOL computation must succeed. -/
def checkValidity (e : IpnsEntry) : Except VerifyError Unit :=
  match getEOL e with
  | Except.ok _ => Except.ok ()
  | Except.error er => Except.error er

/-- Modelled from the spec: `ipns.Validate` (go-ipns, not under src/). It
receives only the resolved public key and the record — never the identity.
It checks the current-scheme signature over the canonical payload; a
record without a current signature is accepted only via the legacy scheme
and only when the explicit caller-selected compatibility flag is set,
never as a silent fallback. After a successful signature check the
validity stage runs, so an unparsable or unrecognized validity is a
terminal ValidityError (spec state machine: SignatureChecked then
ValidityComputed then Verified). -/
def ipnsValidate (compat : Bool) (pk : PubKey) (e : IpnsEntry) : Except VerifyError Unit :=
  match e.signatureV2 with
  | some sig =>
    if verifySig pk (sigV2Payload e) sig then checkValidity e
    else Except.error VerifyError.signatureError
  | none =>
    match compat, e.signatureV1 with
    | true, some sig =>
      if verifySig pk (sigV1Payload e) sig then checkValidity e
      else Except.error VerifyError.signatureError
    | _, _ => Except.error VerifyError.signatureError

/-- Key resolution, translated from the source (name.go lines 117 to 127):
try to extract the public key from the identity; on failure, if the
record's pubKey field is non-empty, unmarshal that field (overwriting both
the key and the error), otherwise keep the extraction error. -/
def resolvePub (id : PeerID) (e : IpnsEntry) : Except VerifyError PubKey :=
  match id.extractPublicKey with
  | Except.ok pub => Except.ok pub
  | Except.error er =>
    if e.pubKey.length > 0 then unmarshalPublicKey e.pubKey
    else Except.error er

/-- The pipeline after record and identity decoding, translated from the
source: resolve the key, validate, and on success emit the entry
(name.go lines 117 to 134). -/
def verifyEntry (compat : Bool) (id : PeerID) (e : IpnsEntry) : Except VerifyError IpnsEntry :=
  match resolvePub id e with
  | Except.error er => Except.error er
  | Except.ok pub =>
    match ipnsValidate compat pub e with
    | Except.error er => Except.error er
    | Except.ok _ => Except.ok e

/-- Whether `p` is an initial segment of `s`, as in Go strings.HasPrefix. -/
def hasPre : List Char → List Char → Bool
  | [], _ => true
  | _ :: _, [] => false
  | p :: ps, c :: cs => p == c && hasPre ps cs

/-- Go strings.TrimPrefix: drop `p` from the front of `s` when it is an
initial segment, otherwise return `s` unchanged. -/
def trimPre (p s : List Char) : List Char :=
  if hasPre p s then s.drop p.length else s

/-- The conventional identity-token scheme marker stripped by the command. -/
def ipnsScheme : List Char := ['/', 'i', 'p', 'n', 's', '/']

/-- The whole command run, translated from the source (name.go lines 90 to
134): strip the conventional marker from the identity argument, unmarshal
the record bytes, decode the identity token, resolve the key, validate,
and emit the decoded entry once on success. The compatibility flag is the
spec-mandated explicit configuration input to the verifier. -/
def runVerify (compat : Bool) (arg : List Char) (b : List Nat) : Except VerifyError IpnsEntry :=
  match protoUnmarshal b with
  | Except.error er => Except.error er
  | Except.ok entry =>
    match peerDecode (trimPre ipnsScheme arg) with
    | Except.error er => Except.error er
    | Except.ok id => verifyEntry compat id entry

/-- The fields the text encoder prints for a verified record, translated
from the source (name.go lines 138 to 154): the value always, the ttl
exactly when present (unchanged, same unit), and the validity timestamp
exactly when the EOL computation succeeds. -/
structure TextOutput where
  value : List Nat
  ttl : Option Nat
  validity : Option Nat
deriving DecidableEq, Repr

/-- The text encoder of the command applied to an emitted entry. -/
def encodeTextOutput (e : IpnsEntry) : TextOutput :=
  ⟨e.value, e.ttl, (getEOL e).toOption⟩

/-- The command run followed by the text encoder. -/
def runVerifyOutput (compat : Bool) (arg : List Char) (b : List Nat) : Except VerifyError TextOutput :=
  Except.map encodeTextOutput (runVerify compat arg b)

/-! Sample values used by concrete witnesses. -/

/-- A compact public key used by witnesses. -/
def sampleKey : PubKey := ⟨KeyType.ed25519, 3⟩

/-- The private key matching `sampleKey`. -/
def samplePriv : PrivKey := ⟨sampleKey⟩

/-- An honestly signed EOL record matching `sampleKey`. -/
def honestEntry : IpnsEntry :=
  ⟨[42], none, some 0, [50, 48], some 1, some 60, [],
    some (signBytes samplePriv [42, 1, 0, 50, 48, 1, 1, 1, 60])⟩

/-- A record carrying an embedded key whose hash differs from the identity
it is verified against, validly signed by that embedded key. -/
def mismatchEntry : IpnsEntry :=
  ⟨[10], none, some 0, [50], some 1, none, [0, 7], some [0, 7, 10, 1, 0, 50, 1, 1, 0]⟩

/-- A record carrying only a legacy signature, honestly signed. -/
def legacyEntry : IpnsEntry :=
  ⟨[42], some (signBytes samplePriv [42, 50, 48]), some 0, [50, 48], some 1, none, [], none⟩

/-- A validly signed record whose validity bytes are empty (unparsable). -/
def badValidityEntry : IpnsEntry :=
  ⟨[42], none, some 0, [], some 1, none, [],
    some (signBytes samplePriv [42, 1, 0, 1, 1, 0])⟩

/-- A record whose embedded public-key bytes do not unmarshal. -/
def badKeyEntry : IpnsEntry :=
  ⟨[], none, none, [], none, none, [9], none⟩

/-! Helper lemmas shared by the claim theorems. -/

/-- A signature produced by a private key verifies under its public key. -/
theorem verifySig_signBytes (sk : PrivKey) (p : List Nat) :
    verifySig sk.toPub p (signBytes sk p) = true := by
  simp [verifySig, signBytes]

/-- Unmarshalling the serialization of a public key returns the key. -/
theorem unmarshal_encodePubKey (pk : PubKey) :
    unmarshalPublicKey (encodePubKey pk) = Except.ok pk := by
  obtain ⟨kt, kd⟩ := pk
  cases kt <;> rfl

/-- Key resolution succeeds with the matching key whenever the identity is
derived from that key and, for the hash-only family, the record embeds the
key's serialization. -/
theorem resolvePub_ofPubKey (pk : PubKey) (e : IpnsEntry)
    (hkey : pk.keyType = KeyType.ed25519 ∨ e.pubKey = encodePubKey pk) :
    resolvePub (peerIDOfPubKey pk) e = Except.ok pk := by
  obtain ⟨kt, kd⟩ := pk
  cases kt with
  | ed25519 => rfl
  | rsa =>
    rcases hkey with h | h
    · exact absurd h (by simp)
    · unfold peerIDOfPubKey resolvePub PeerID.extractPublicKey
      simp only [h]
      rw [if_pos (by simp [encodePubKey])]
      exact unmarshal_encodePubKey ⟨KeyType.rsa, kd⟩

/-- The EOL computation succeeds on an EOL record with parsable validity. -/
theorem getEOL_ok (e : IpnsEntry) (t : Nat)
    (hvt : e.validityType = some eolValidityType)
    (hts : parseTimestamp e.validity = some t) :
    getEOL e = Except.ok t := by
  unfold getEOL
  rw [if_pos hvt, hts]

/-- The EOL computation fails with ValidityError on an unrecognized
validity type or an unparsable timestamp. -/
theorem getEOL_bad (e : IpnsEntry)
    (hbad : e.validityType ≠ some eolValidityType ∨ parseTimestamp e.validity = none) :
    getEOL e = Except.error VerifyError.validityError := by
  unfold getEOL
  rcases hbad with h | h
  · rw [if_neg h]
  · by_cases hvt : e.validityType = some eolValidityType
    · rw [if_pos hvt, h]
    · rw [if_neg hvt]

/-- A list is an initial segment of itself followed by anything. -/
theorem hasPre_append (p s : List Char) : hasPre p (p ++ s) = true := by
  induction p with
  | nil => rfl
  | cons c cs ih => simp [hasPre, ih]

/-- Trimming a leading segment that is there removes exactly it. -/
theorem trimPre_append (p s : List Char) : trimPre p (p ++ s) = s := by
  unfold trimPre
  rw [if_pos (hasPre_append p s)]
  exact List.drop_left p s

/-- Trimming a leading segment that is not there changes nothing. -/
theorem trimPre_of_no_marker (p s : List Char) (h : hasPre p s = false) :
    trimPre p s = s := by
  unfold trimPre
  rw [h]
  simp

/-! Claim theorems. -/

/-- C1 (code bug): the source never compares the hash of the
record-embedded public key with the identity. Concretely, against the
hash-only identity token H5 (identity hash 5), a record embedding a key
whose serialization hashes to a different value is accepted whenever its
signature is valid under that embedded key, instead of failing with a
key-resolution error as the claim requires. -/
theorem c1_mismatched_embedded_key_accepted :
    runVerify false ['H', '5'] (encodeEntry mismatchEntry) = Except.ok mismatchEntry ∧
      peerDecode ['H', '5'] = Except.ok (PeerID.hashed 5) ∧
      mismatchEntry.pubKey ≠ [] ∧
      hashBytes mismatchEntry.pubKey ≠ 5 :=
  ⟨rfl, rfl, by decide, by decide⟩

/-- C2: when the public key can be extracted directly from the identity,
key resolution returns that extracted key for every record, and replacing
the record's embedded public-key field by anything changes nothing. -/
theorem c2_direct_key_trusted (id : PeerID) (pk : PubKey) (e : IpnsEntry) (p : List Nat)
    (h : id.extractPublicKey = Except.ok pk) :
    resolvePub id e = Except.ok pk ∧
      resolvePub id ⟨e.value, e.signatureV1, e.validityType, e.validity,
        e.sequence, e.ttl, p, e.signatureV2⟩ = Except.ok pk := by
  cases id with
  | embedded pk2 =>
    injection h with h2
    subst h2
    exact ⟨rfl, rfl⟩
  | hashed h2 => exact absurd h (by simp [PeerID.extractPublicKey])

/-- Witness for C2 at a concrete compact identity and record. -/
theorem c2_direct_key_trusted_witness :
    resolvePub (PeerID.embedded sampleKey) emptyEntry = Except.ok sampleKey ∧
      resolvePub (PeerID.embedded sampleKey) ⟨[], none, none, [], none, none, [0, 7], none⟩ =
        Except.ok sampleKey :=
  c2_direct_key_trusted (PeerID.embedded sampleKey) sampleKey emptyEntry [0, 7] rfl

/-- C3: for a well-formed identity token that does not self-describe a
key, a record with an empty public-key field fails with the no-key-source
key-resolution error, whatever either signature field holds, so the
signature is never checked. -/
theorem c3_no_key_source (compat : Bool) (tok : List Char) (id : PeerID) (er : VerifyError)
    (e : IpnsEntry) (s1 s2 : Option (List Nat))
    (htok : peerDecode tok = Except.ok id)
    (hex : id.extractPublicKey = Except.error er)
    (hpk : e.pubKey = []) :
    verifyEntry compat id ⟨e.value, s1, e.validityType, e.validity,
        e.sequence, e.ttl, e.pubKey, s2⟩ =
      Except.error (VerifyError.keyResolutionError KeyResolutionReason.noKeySource) := by
  cases id with
  | embedded pk => exact absurd hex (by simp [PeerID.extractPublicKey])
  | hashed h2 =>
    unfold verifyEntry resolvePub PeerID.extractPublicKey
    simp [hpk]

/-- Witness for C3 at a concrete hash-only identity and keyless record. -/
theorem c3_no_key_source_witness :
    verifyEntry false (PeerID.hashed 5) ⟨[], none, none, [], none, none, [], some [9]⟩ =
      Except.error (VerifyError.keyResolutionError KeyResolutionReason.noKeySource) :=
  c3_no_key_source false ['H', '5'] (PeerID.hashed 5)
    (VerifyError.keyResolutionError KeyResolutionReason.noKeySource)
    emptyEntry none (some [9]) rfl rfl rfl

/-- C4: a record lacking the current-scheme signature is never accepted
when the explicit compatibility flag is off, whatever legacy signature it
carries: acceptance through the legacy payload is never a silent fallback. -/
theorem c4_no_silent_legacy_fallback (id : PeerID) (e : IpnsEntry)
    (h : e.signatureV2 = none) :
    (verifyEntry false id e).isOk = false := by
  unfold verifyEntry
  cases hr : resolvePub id e with
  | error er => rfl
  | ok pub =>
    unfold ipnsValidate
    rw [h]
    cases e.signatureV1 <;> rfl

/-- Witness for C4: an honestly legacy-signed record is rejected without
the compatibility flag. -/
theorem c4_no_silent_legacy_fallback_witness :
    (verifyEntry false (PeerID.embedded sampleKey) legacyEntry).isOk = false :=
  c4_no_silent_legacy_fallback (PeerID.embedded sampleKey) legacyEntry rfl

/-- C5: when the signature verifies under the resolved key but the
validity type is unrecognized or the validity timestamp is unparsable,
verification fails with ValidityError. -/
theorem c5_validity_error_despite_valid_signature (compat : Bool) (id : PeerID)
    (pub : PubKey) (e : IpnsEntry) (s : List Nat)
    (hres : resolvePub id e = Except.ok pub)
    (hsig2 : e.signatureV2 = some s)
    (hok : verifySig pub (sigV2Payload e) s = true)
    (hbad : e.validityType ≠ some eolValidityType ∨ parseTimestamp e.validity = none) :
    verifyEntry compat id e = Except.error VerifyError.validityError := by
  have hv : getEOL e = Except.error VerifyError.validityError := getEOL_bad e hbad
  simp [verifyEntry, ipnsValidate, checkValidity, hres, hsig2, hok, hv]

/-- Witness for C5: a validly signed record with empty validity bytes is
rejected with ValidityError. -/
theorem c5_validity_error_despite_valid_signature_witness :
    verifyEntry false (PeerID.embedded sampleKey) badValidityEntry =
      Except.error VerifyError.validityError :=
  c5_validity_error_despite_valid_signature false (PeerID.embedded sampleKey)
    sampleKey badValidityEntry (signBytes samplePriv [42, 1, 0, 1, 1, 0])
    rfl rfl rfl (Or.inr rfl)

/-- C6: a record with EOL validity type, a parsable validity timestamp,
any sequence and optional ttl, signed with the private key and verified
against the identity derived from the matching public key (the record
embedding that key's serialization when the identity is hash-only, per
the data model), verifies successfully; the emitted text output holds
exactly the record's value, its EOL timestamp, and its ttl unchanged,
absent when the record has none. -/
theorem c6_honest_record_verifies (compat : Bool) (sk : PrivKey) (tok : List Char)
    (b : List Nat) (e : IpnsEntry) (t : Nat)
    (hdec : protoUnmarshal b = Except.ok e)
    (htok : peerDecode (trimPre ipnsScheme tok) = Except.ok (peerIDOfPubKey sk.toPub))
    (hvt : e.validityType = some eolValidityType)
    (hts : parseTimestamp e.validity = some t)
    (hsig : e.signatureV2 = some (signBytes sk (sigV2Payload e)))
    (hkey : sk.toPub.keyType = KeyType.ed25519 ∨ e.pubKey = encodePubKey sk.toPub) :
    runVerify compat tok b = Except.ok e ∧
      runVerifyOutput compat tok b = Except.ok ⟨e.value, e.ttl, some t⟩ := by
  have hres : resolvePub (peerIDOfPubKey sk.toPub) e = Except.ok sk.toPub :=
    resolvePub_ofPubKey sk.toPub e hkey
  have heol : getEOL e = Except.ok t := getEOL_ok e t hvt hts
  have hval : ipnsValidate compat sk.toPub e = Except.ok () := by
    simp [ipnsValidate, checkValidity, hsig, verifySig_signBytes, heol]
  have hrun : runVerify compat tok b = Except.ok e := by
    simp [runVerify, verifyEntry, hdec, htok, hres, hval]
  refine ⟨hrun, ?_⟩
  simp [runVerifyOutput, hrun, Except.map, encodeTextOutput, heol, Except.toOption]

/-- Witness for C6 at a concrete compact keypair and honest record. -/
theorem c6_honest_record_verifies_witness :
    runVerify false ['E', '3'] (encodeEntry honestEntry) = Except.ok honestEntry ∧
      runVerifyOutput false ['E', '3'] (encodeEntry honestEntry) =
        Except.ok ⟨honestEntry.value, honestEntry.ttl, some 20⟩ :=
  c6_honest_record_verifies false samplePriv ['E', '3'] (encodeEntry honestEntry)
    honestEntry 20 rfl rfl rfl rfl rfl (Or.inl rfl)

/-- C7: the command emits a verified record exactly when record decoding,
identity decoding, key resolution and validation all succeed; otherwise
it returns a single error value and emits nothing. -/
theorem c7_emit_iff_all_stages (compat : Bool) (arg : List Char) (b : List Nat) :
    ((∃ out, runVerify compat arg b = Except.ok out) ↔
      ∃ e id pub, protoUnmarshal b = Except.ok e ∧
        peerDecode (trimPre ipnsScheme arg) = Except.ok id ∧
        resolvePub id e = Except.ok pub ∧
        ipnsValidate compat pub e = Except.ok ()) ∧
      ((¬ ∃ out, runVerify compat arg b = Except.ok out) →
        ∃ er, runVerify compat arg b = Except.error er) := by
  constructor
  · constructor
    · rintro ⟨out, hout⟩
      rcases hd : protoUnmarshal b with er | e
      · simp [runVerify, hd] at hout
      · rcases hp : peerDecode (trimPre ipnsScheme arg) with er | id
        · simp [runVerify, hd, hp] at hout
        · rcases hr : resolvePub id e with er | pub
          · simp [runVerify, verifyEntry, hd, hp, hr] at hout
          · rcases hv : ipnsValidate compat pub e with er | u
            · simp [runVerify, verifyEntry, hd, hp, hr, hv] at hout
            · cases u
              exact ⟨e, id, pub, by simp [hd], by simp [hp], by simp [hr], by simp [hv]⟩
    · rintro ⟨e, id, pub, hd, hp, hr, hv⟩
      exact ⟨e, by simp [runVerify, verifyEntry, hd, hp, hr, hv]⟩
  · intro h
    rcases hx : runVerify compat arg b with er | out
    · exact ⟨er, rfl⟩
    · exact absurd ⟨out, hx⟩ h

/-- Witness for C7: on the honest concrete input all four stages succeed,
and the equivalence yields an emitted record. -/
theorem c7_emit_iff_all_stages_witness :
    ∃ out, runVerify false ['E', '3'] (encodeEntry honestEntry) = Except.ok out :=
  (c7_emit_iff_all_stages false ['E', '3'] (encodeEntry honestEntry)).1.mpr
    ⟨honestEntry, PeerID.embedded sampleKey, sampleKey, rfl, rfl, rfl, rfl⟩

/-- C8: for an identity argument that does not itself start with the
conventional scheme marker, prepending the marker does not change the
result of verification: the marker is stripped before decoding. -/
theorem c8_scheme_marker_stripped (compat : Bool) (k : List Char) (b : List Nat)
    (h : hasPre ipnsScheme k = false) :
    runVerify compat (ipnsScheme ++ k) b = runVerify compat k b := by
  unfold runVerify
  rw [trimPre_append, trimPre_of_no_marker ipnsScheme k h]

/-- Witness for C8 at a concrete identity token and record bytes. -/
theorem c8_scheme_marker_stripped_witness :
    runVerify false (ipnsScheme ++ ['E', '3']) (encodeEntry honestEntry) =
      runVerify false ['E', '3'] (encodeEntry honestEntry) :=
  c8_scheme_marker_stripped false ['E', '3'] (encodeEntry honestEntry) rfl

/-- C9: verification is a pure function of the identity argument and the
record bytes: equal inputs give equal outcomes, so a retry on the same
pair cannot change the result. -/
theorem c9_deterministic (compat : Bool) (k1 k2 : List Char) (b1 b2 : List Nat)
    (hk : k1 = k2) (hb : b1 = b2) :
    runVerify compat k1 b1 = runVerify compat k2 b2 := by
  rw [hk, hb]

/-- Witness for C9 at a concrete repeated input. -/
theorem c9_deterministic_witness :
    runVerify false ['E', '3'] (encodeEntry honestEntry) =
      runVerify false ['E', '3'] (encodeEntry honestEntry) :=
  c9_deterministic false ['E', '3'] ['E', '3']
    (encodeEntry honestEntry) (encodeEntry honestEntry) rfl rfl

/-- C10: in the key-resolution fallback, when extraction from the identity
fails, a non-empty embedded public-key field makes the outcome exactly the
unmarshalling outcome (the extraction error is discarded), while an empty
field returns the original extraction error unchanged. -/
theorem c10_fallback_error_replacement (id : PeerID) (e : IpnsEntry) (er : VerifyError)
    (hex : id.extractPublicKey = Except.error er) :
    (e.pubKey ≠ [] → resolvePub id e = unmarshalPublicKey e.pubKey) ∧
      (e.pubKey = [] → resolvePub id e = Except.error er) := by
  constructor
  · intro h
    have hl : 0 < e.pubKey.length := List.length_pos.mpr h
    simp [resolvePub, hex, hl]
  · intro h
    simp [resolvePub, hex, h]

/-- Witness for C10: with a hash-only identity, a record embedding
unparsable key bytes surfaces the unmarshalling error, and a keyless
record surfaces the extraction error. -/
theorem c10_fallback_error_replacement_witness :
    resolvePub (PeerID.hashed 5) badKeyEntry = unmarshalPublicKey badKeyEntry.pubKey ∧
      resolvePub (PeerID.hashed 5) emptyEntry =
        Except.error (VerifyError.keyResolutionError KeyResolutionReason.noKeySource) :=
  ⟨(c10_fallback_error_replacement (PeerID.hashed 5) badKeyEntry
      (VerifyError.keyResolutionError KeyResolutionReason.noKeySource) rfl).1 (by decide),
    (c10_fallback_error_replacement (PeerID.hashed 5) emptyEntry
      (VerifyError.keyResolutionError KeyResolutionReason.noKeySource) rfl).2 rfl⟩
